import Mathlib

/-!
Verification of the controller-type registration core of the revel web
framework (`controller_type.go` and `controller/functional_annotations.go`).

The development shallowly embeds the Go code:

* Go's reflected types (`reflect.Type`) become the inductive `GoType`; a
  struct type carries its field list (each field has an anonymous flag and a
  type), the method set reported for its value form, and the extra methods
  reported only for its pointer form.  Go compares named reflected types
  nominally, so type identity is modelled by `TypeId` (name of the head type,
  with pointer wrappers); this also lets a method mention its own receiver
  type in its outputs without building an infinite term.
* Go's reflected values become the inductive `GoValue`; a nil pointer is its
  own constructor because `reflect.Value.Elem` on a nil pointer returns the
  zero `Value`, and any subsequent `Type`/`Field`/`Call` on the zero `Value`
  panics.  Panics are modelled by `Option`/`none` results.
* Slices become lists (value semantics), `map[string]*ControllerType`
  becomes an association list whose lookup takes the first matching key,
  and a `reflect.Value` holding a method's function (`m.Func`) becomes an
  opaque numeric handle; calling through it (`Call`) is a semantic
  environment passed to `Invoke`, since executing user method bodies is
  outside this core.
* Logging (`controllerLog.Errorf` / `Debugf`) has no observable effect on
  the modelled state and is dropped.
-/

set_option linter.unusedVariables false

namespace Revel

/-- Go's `strings.ToLower`, restricted to per-character lowering (method and
type names are identifiers, so the simple character map is exact on them). -/
def toLowerStr (s : String) : String := ⟨s.data.map Char.toLower⟩

/-- Nominal identity of a reflected Go type: the defined (named) type at the
head, wrapped by pointer constructors.  Two reflected types are `==` in Go
exactly when their identities agree (distinct named types have distinct
names). -/
inductive TypeId where
  | named : String → TypeId
  | ptrTo : TypeId → TypeId
deriving DecidableEq

/-- One entry of a reflected method set: the method's name, the declared
output types of its function type (`m.Type.Out`), and an opaque handle for
the function value `m.Func`. -/
structure GoMethod where
  name : String
  outs : List TypeId
  fid : Nat
deriving DecidableEq

/-- A reflected Go type, as far as this core inspects one: a non-struct
named type, a pointer type, or a struct type with its name, its fields
(anonymous flag and field type, in declaration order), the method set
reported for the value form, and the extra methods reported only for the
pointer form (Go's method set of a pointer type is the union of both). -/
inductive GoType where
  | prim : String → GoType
  | ptr : GoType → GoType
  | strukt : String → List (Bool × GoType) → List GoMethod → List GoMethod → GoType

/-- Nominal identity of a `GoType`, used wherever the Go source compares
reflected types with `==`. -/
def typeIdOf : GoType → TypeId
  | .prim n => .named n
  | .strukt n _ _ _ => .named n
  | .ptr t => .ptrTo (typeIdOf t)

/-- The `Name()` of a reflected type: defined types report their name, a
pointer type reports the empty string. -/
def typeName : GoType → String
  | .prim n => n
  | .strukt n _ _ _ => n
  | .ptr _ => ""

/-- Field list of a struct type.  `NumField`/`Field` are only reached on
struct kinds in the embedded code, so the non-struct case is unreachable
there and returns the empty list. -/
def fieldsOf : GoType → List (Bool × GoType)
  | .strukt _ fs _ _ => fs
  | _ => []

/-- Kind test `Kind() == reflect.Struct`. -/
def isStruktKind : GoType → Bool
  | .strukt _ _ _ _ => true
  | _ => false

/-- Kind test `Kind() == reflect.Ptr`. -/
def isPtrKind : GoType → Bool
  | .ptr _ => true
  | _ => false

/-- The method set reflection reports for a type: for a struct its value
methods, for a pointer to a struct the value methods together with the
pointer-receiver methods, and empty otherwise. -/
def methodSet : GoType → List GoMethod
  | .strukt _ _ vm _ => vm
  | .ptr (.strukt _ _ vm pm) => vm ++ pm
  | _ => []

/- Size of a type's structural tree, used as the termination measure of the
walks (mirrors that declared Go struct types cannot recursively embed
themselves by value). -/
mutual
def tySize : GoType → Nat
  | .prim _ => 1
  | .ptr t => 1 + tySize t
  | .strukt _ fs _ _ => 1 + fsSize fs
def fsSize : List (Bool × GoType) → Nat
  | [] => 0
  | (_, t) :: rest => 1 + tySize t + fsSize rest
end

/-- The designated capability type: `controllerPtrType` is the reflected
`*revel.Controller` (declared in `controller.go`, outside the embedded
files; only its identity matters here, so its field and method lists are
irrelevant and left empty). -/
def controllerPtrType : GoType := .ptr (.strukt "Controller" [] [] [])

/-- Deferred binding to a discovered hook or method: receiver form, the
field-index path from the root, the opaque handle of the function value to
call, and opaque annotation metadata (never read by this core). -/
structure ControllerFieldPath where
  IsPointer : Bool
  FieldIndexPath : List Nat
  FunctionCall : Nat
  Annotations : List String
deriving DecidableEq

/-- The four lifecycle-hook buckets, in the field order of the Go struct. -/
structure ControllerTypeEvents where
  Before : List ControllerFieldPath
  After : List ControllerFieldPath
  Finally : List ControllerFieldPath
  Panic : List ControllerFieldPath
deriving DecidableEq

/-- `newFieldPath` from the source (the `Annotations` field is left at its
zero value there). -/
def newFieldPath (isPointer : Bool) (value : Nat) (fieldPath : List Nat) : ControllerFieldPath :=
  { IsPointer := isPointer, FunctionCall := value, FieldIndexPath := fieldPath,
    Annotations := [] }

/-- The `typeChecker` closure inside `ControllerTypeEvents.check`: scan the
method set of `checkType`; a method with exactly two outputs whose second
output is the examined type itself becomes a field path, filed under the
bucket matching its lowercased name (`Before` entries are prepended, the
other buckets are appended); other names fall through the `switch` and are
dropped. -/
def typeChecker (cte : ControllerTypeEvents) (fieldPath : List Nat) (checkType : GoType) :
    ControllerTypeEvents :=
  (methodSet checkType).foldl (fun cte m =>
    if m.outs.length = 2 ∧ m.outs[1]? = some (typeIdOf checkType) then
      let controllerFieldPath := newFieldPath (isPtrKind checkType) m.fid fieldPath
      match toLowerStr m.name with
      | "before" => { cte with Before := controllerFieldPath :: cte.Before }
      | "after" => { cte with After := cte.After ++ [controllerFieldPath] }
      | "panic" => { cte with Panic := cte.Panic ++ [controllerFieldPath] }
      | "finally" => { cte with Finally := cte.Finally ++ [controllerFieldPath] }
      | _ => cte
    else cte) cte

theorem fieldsOf_size (t : GoType) : fsSize (fieldsOf t) < tySize t := by
  cases t <;> simp [fieldsOf, tySize, fsSize]

/- `ControllerTypeEvents.check`: run `typeChecker` on the value form and on
the pointer form of the current type, then recurse into every struct-kind
field (extending the field path with the field's index). -/
mutual
def check (cte : ControllerTypeEvents) (theType : GoType) (fieldPath : List Nat) :
    ControllerTypeEvents :=
  checkFields (typeChecker (typeChecker cte fieldPath theType) fieldPath (.ptr theType))
    (fieldsOf theType) fieldPath 0
termination_by tySize theType
decreasing_by exact fieldsOf_size theType
def checkFields : ControllerTypeEvents → List (Bool × GoType) → List Nat → Nat →
    ControllerTypeEvents
  | cte, [], _, _ => cte
  | cte, (_, t) :: rest, fieldPath, i =>
    checkFields (if isStruktKind t then check cte t (fieldPath ++ [i]) else cte)
      rest fieldPath (i + 1)
termination_by cte fs fieldPath i => fsSize fs
decreasing_by
  all_goals simp [fsSize]
  all_goals omega
end

/-- A queue entry of the breadth-first walk of `findControllers`.  Every
value reached by the walk is the zero value of its type except the root,
which `reflect.New` makes a non-nil pointer; so a node is fully described by
its type, whether it is the (non-nil) root pointer, and the index path that
reached it. -/
structure BfsNode where
  valTy : GoType
  nonNil : Bool
  index : List Nat

/-- Dereference step at the head of the loop: a pointer-kind node is
replaced by its pointee.  On a nil pointer `Elem()` returns the zero
`reflect.Value` and the immediate `Type()` call on it panics, which `none`
records. -/
def derefNode (n : BfsNode) : Option GoType :=
  match n.valTy with
  | .ptr t => if n.nonNil then some t else none
  | t => some t

/-- The field scan of one dequeued struct: named fields are skipped; an
anonymous field whose type is the capability type records the extended index
path; every other anonymous field is enqueued (as the zero value of its
declared type) with the extended index path. -/
def processFields : List (Bool × GoType) → List Nat → Nat → List (List Nat) × List BfsNode
  | [], _, _ => ([], [])
  | (anon, t) :: rest, base, i =>
    let r := processFields rest base (i + 1)
    if anon then
      if typeIdOf t = typeIdOf controllerPtrType then ((base ++ [i]) :: r.1, r.2)
      else (r.1, ⟨t, false, base ++ [i]⟩ :: r.2)
    else r

/-- Total structural size of the pending queue, the termination measure of
the breadth-first loop. -/
def queueMeasure (q : List BfsNode) : Nat := (q.map (fun n => tySize n.valTy)).sum

theorem tySize_pos (t : GoType) : 0 < tySize t := by
  cases t <;> simp [tySize]

theorem derefNode_size (n : BfsNode) (t : GoType) (h : derefNode n = some t) :
    tySize t ≤ tySize n.valTy := by
  unfold derefNode at h
  cases hv : n.valTy <;> rw [hv] at h
  case prim s => cases h; exact Nat.le_refl _
  case strukt s fs vm pm => cases h; exact Nat.le_refl _
  case ptr t' =>
    cases hn : n.nonNil <;> rw [hn] at h <;> simp at h
    cases h
    simp [tySize]

theorem processFields_size (fs : List (Bool × GoType)) (base : List Nat) (i : Nat) :
    queueMeasure (processFields fs base i).2 ≤ fsSize fs := by
  induction fs generalizing i with
  | nil => simp [processFields, queueMeasure, fsSize]
  | cons hd rest ih =>
    obtain ⟨anon, t⟩ := hd
    have hr := ih (i + 1)
    cases anon <;> by_cases hc : typeIdOf t = typeIdOf controllerPtrType <;>
      simp [processFields, fsSize, queueMeasure, hc] at hr ⊢ <;>
      omega

/-- The worklist loop of `findControllers`: dequeue a node, dereference it
if it is a pointer (panicking on nil), skip it unless it is a struct, scan
its fields, append the paths found here, and continue with the grown
queue. -/
def findLoop : List BfsNode → Option (List (List Nat))
  | [] => some []
  | n :: rest =>
    match h : derefNode n with
    | none => none
    | some (.strukt nm fs vm pm) =>
      let pr := processFields fs n.index 0
      match findLoop (rest ++ pr.2) with
      | none => none
      | some tail => some (pr.1 ++ tail)
    | some _ => findLoop rest
termination_by q => queueMeasure q
decreasing_by
  · have h1 := derefNode_size n _ h
    have h2 := processFields_size fs n.index 0
    simp only [tySize] at h1
    simp only [queueMeasure, List.map_append, List.sum_append, List.map_cons,
      List.sum_cons] at *
    omega
  · have h1 := tySize_pos n.valTy
    simp only [queueMeasure, List.map_cons, List.sum_cons]
    omega

/-- `findControllers`: breadth-first search over the anonymous fields of the
controller type, started from `reflect.New`'s non-nil pointer to a zero
value, collecting the index path of every embedded `*Controller` field. -/
def findControllers (appControllerType : GoType) : Option (List (List Nat)) :=
  findLoop [⟨.ptr appControllerType, true, []⟩]

/-- A reflected Go value, as far as `Invoke` inspects one: an opaque
non-struct value, a struct with its field values, a non-nil pointer to a
value, or a nil pointer. -/
inductive GoValue where
  | prim : Nat → GoValue
  | strukt : List GoValue → GoValue
  | ptr : GoValue → GoValue
  | nilPtr : GoValue

/-- Kind test `Type().Kind() == reflect.Ptr` on a value (a typed nil pointer
still has pointer kind). -/
def GoValue.kindIsPtr : GoValue → Bool
  | .ptr _ => true
  | .nilPtr => true
  | _ => false

/-- `Value.Elem` on a pointer.  On a nil pointer Go returns the zero
`Value`, whose only uses in `Invoke` (`Field` or `Call`) panic, so the nil
case is collapsed to `none`. -/
def GoValue.elem : GoValue → Option GoValue
  | .ptr v => some v
  | _ => none

/-- `Value.Field` by index; panics (`none`) on a non-struct value or an
out-of-range index. -/
def GoValue.field : GoValue → Nat → Option GoValue
  | .strukt fs, i => fs[i]?
  | _, _ => none

/-- `ControllerFieldPath.Invoke`: walk the stored index path (dereferencing
before selecting whenever the current value is a pointer), normalize the
resolved value to the stored receiver kind (`Addr` if a pointer receiver is
needed but the value is not a pointer — addressability always holds for
values reached through the root pointer and is not modelled — `Elem` if a
value receiver is needed but the value is a pointer), and call the stored
function with the receiver prepended to the input values.  `call` is the
semantics of `reflect.Value.Call` on the opaque function handles. -/
def ControllerFieldPath.Invoke (call : Nat → List GoValue → List GoValue)
    (fieldPath : ControllerFieldPath) (value : GoValue) (input : List GoValue) :
    Option (List GoValue) :=
  match fieldPath.FieldIndexPath.foldlM
      (fun value index =>
        if value.kindIsPtr then
          match value.elem with
          | none => none
          | some e => e.field index
        else value.field index) value with
  | none => none
  | some value =>
    match (if fieldPath.IsPointer && !value.kindIsPtr then some (GoValue.ptr value)
           else if !fieldPath.IsPointer && value.kindIsPtr then value.elem
           else some value) with
    | none => none
    | some value => some (call fieldPath.FunctionCall (value :: input))

/-- Modelled from the spec: the owning `Module` type is declared outside the
embedded files; per §6 it only supplies an identity and a namespace string,
so it is modelled as exactly that pair (Go compares modules by pointer
identity; distinct modules are modelled as distinct pairs). -/
structure Module where
  name : String
  ns : String
deriving DecidableEq

/-- Modelled from the spec: `Module.Namespace` returns the module's
namespace string, the prefix of every logical controller name of that
module. -/
def Module.Namespace (m : Module) : String := m.ns

/-- Modelled from the spec: `appModule`, the distinguished primary
application module, declared outside the embedded files. -/
def appModule : Module := { name := "App", ns := "App." }

/-- `MethodArg`: an argument name and its reflected type (only its identity
is ever relevant here). -/
structure MethodArg where
  Name : String
  typ : TypeId
deriving DecidableEq

/-- `MethodType`: metadata for one action method.  `lowerName` is filled by
the registration pipeline outside the embedded files with the lowercased
`Name`; `Method` below compares against it. -/
structure MethodType where
  Name : String
  Args : List MethodArg
  RenderArgNames : List (Nat × List String)
  lowerName : String
  Index : Nat
  Annotations : List String
deriving DecidableEq

/-- `ControllerType`: one registered controller descriptor.  `typ` stands
for the Go field `Type` (a Lean keyword). -/
structure ControllerType where
  Namespace : String
  ModuleSource : Module
  typ : GoType
  Methods : List MethodType
  ControllerIndexes : List (List Nat)
  ControllerEvents : ControllerTypeEvents
  Annotations : List String

/-- `ControllerType.Method`: first method whose stored `lowerName` equals
the lowercased query (case-insensitive lookup), `none` when no method
matches. -/
def ControllerType.Method (ct : ControllerType) (name : String) : Option MethodType :=
  ct.Methods.find? (fun method => method.lowerName == toLowerStr name)

/-- `ControllerType.ShortName`: the lowercased name of the controller's
type. -/
def ControllerType.ShortName (ct : ControllerType) : String := toLowerStr (typeName ct.typ)

/-- `ControllerType.Name`: namespace followed by the short name. -/
def ControllerType.Name (ct : ControllerType) : String := ct.Namespace ++ ct.ShortName

/-- `NewControllerTypeEvents`: hook discovery over the controller's type,
started with empty buckets and an empty field path. -/
def NewControllerTypeEvents (c : ControllerType) : ControllerTypeEvents :=
  check { Before := [], After := [], Finally := [], Panic := [] } c.typ []

/-- The controller registry `map[string]*ControllerType`, modelled as an
association list whose lookup returns the first binding of a key; an insert
conses a new binding (which therefore shadows older ones, matching map
assignment for every later lookup). -/
abbrev ControllerContainer := List (String × ControllerType)

/-- `ControllerContainer.AddControllerType`: default a nil module to
`appModule`; build the descriptor (capability-field discovery, hook
discovery, namespace); if the logical name is already bound, keep the
registry unchanged (the duplicate is only logged); otherwise insert it and,
when the owning module is the application module, also bind the bare short
name.  `Module.AddController` only appends to the module's own list, state
outside the registry modelled here, and logging has no modelled effect;
`none` propagates a reflection panic raised while building the
descriptor. -/
def AddControllerType (c : ControllerContainer) (moduleSource : Option Module)
    (controllerType : GoType) (methods : List MethodType) :
    Option (ControllerContainer × ControllerType) :=
  let moduleSource := match moduleSource with
    | none => appModule
    | some m => m
  match findControllers controllerType with
  | none => none
  | some idxs =>
    let base : ControllerType :=
      { Namespace := "", ModuleSource := moduleSource, typ := controllerType,
        Methods := methods, ControllerIndexes := idxs,
        ControllerEvents := { Before := [], After := [], Finally := [], Panic := [] },
        Annotations := [] }
    let withEvents := { base with ControllerEvents := NewControllerTypeEvents base }
    let newControllerType := { withEvents with Namespace := moduleSource.Namespace }
    let controllerName := newControllerType.Name
    match c.lookup controllerName with
    | some _ => some (c, newControllerType)
    | none =>
      let c1 : ControllerContainer := (controllerName, newControllerType) :: c
      let c2 : ControllerContainer :=
        if newControllerType.ModuleSource = appModule then
          (newControllerType.ShortName, newControllerType) :: c1
        else c1
      some (c2, newControllerType)

/-- Qualification test of the spec (§4.2, step 1): exactly two declared
outputs, the second being exactly the type form currently examined. -/
def qualifies (checkType : GoType) (m : GoMethod) : Bool :=
  decide (m.outs.length = 2 ∧ m.outs[1]? = some (typeIdOf checkType))

/-- The field paths one `typeChecker` pass over the method list `l`
contributes to a given bucket, in the order the methods are listed:
qualifying methods whose lowercased name is the bucket name, each turned
into a field path. -/
def hookedOf (checkType : GoType) (fieldPath : List Nat) (l : List GoMethod)
    (bucket : String) : List ControllerFieldPath :=
  (l.filter (fun m => qualifies checkType m && (toLowerStr m.name == bucket))).map
    (fun m => newFieldPath (isPtrKind checkType) m.fid fieldPath)

/-- The four hook buckets in plain discovery order (the order the traversal
encounters the hooks), before any per-bucket ordering rule is applied. -/
structure DiscoveredHooks where
  Before : List ControllerFieldPath
  After : List ControllerFieldPath
  Finally : List ControllerFieldPath
  Panic : List ControllerFieldPath
deriving DecidableEq

/-- Hooks discovered at one level of the walk for one type form. -/
def levelHooks (checkType : GoType) (fieldPath : List Nat) : DiscoveredHooks :=
  { Before := hookedOf checkType fieldPath (methodSet checkType) "before",
    After := hookedOf checkType fieldPath (methodSet checkType) "after",
    Finally := hookedOf checkType fieldPath (methodSet checkType) "finally",
    Panic := hookedOf checkType fieldPath (methodSet checkType) "panic" }

/-- No hooks discovered. -/
def emptyDH : DiscoveredHooks := { Before := [], After := [], Finally := [], Panic := [] }

/-- Concatenation of discovery-order bucket lists (earlier discoveries
first). -/
def appendDH (a b : DiscoveredHooks) : DiscoveredHooks :=
  { Before := a.Before ++ b.Before, After := a.After ++ b.After,
    Finally := a.Finally ++ b.Finally, Panic := a.Panic ++ b.Panic }

/-- Filing discovered hooks into an existing event set per the ordering
rule: `Before` hooks end up in reverse discovery order in front of the
existing entries, the other buckets are appended in discovery order. -/
def combineDH (d : DiscoveredHooks) (cte : ControllerTypeEvents) : ControllerTypeEvents :=
  { Before := d.Before.reverse ++ cte.Before, After := cte.After ++ d.After,
    Finally := cte.Finally ++ d.Finally, Panic := cte.Panic ++ d.Panic }

/- Discovery-order mirror of `check`: the hooks of the value form, then of
the pointer form, then of each struct-kind field in declaration order,
recursively. -/
mutual
def hookLists (theType : GoType) (fieldPath : List Nat) : DiscoveredHooks :=
  appendDH (appendDH (levelHooks theType fieldPath) (levelHooks (.ptr theType) fieldPath))
    (hookListsFields (fieldsOf theType) fieldPath 0)
termination_by tySize theType
decreasing_by exact fieldsOf_size theType
def hookListsFields : List (Bool × GoType) → List Nat → Nat → DiscoveredHooks
  | [], _, _ => emptyDH
  | (_, t) :: rest, fieldPath, i =>
    appendDH (if isStruktKind t then hookLists t (fieldPath ++ [i]) else emptyDH)
      (hookListsFields rest fieldPath (i + 1))
termination_by fs fieldPath i => fsSize fs
decreasing_by
  all_goals simp [fsSize]
  all_goals omega
end

/-- List elements paired with their positions, counting from `i`. -/
def enumFrom {α : Type} : Nat → List α → List (Nat × α)
  | _, [] => []
  | i, a :: rest => (i, a) :: enumFrom (i + 1) rest

/- A type is clean when the breadth-first walk of `findControllers` starting
at it records nothing and dequeues no nil pointer: no field of its
transitive anonymous-embedding closure is the capability type or of pointer
kind (named fields are unconstrained, the walk never visits them). -/
mutual
def cleanTy : GoType → Bool
  | .strukt _ fs _ _ => cleanFields fs
  | _ => true
def cleanFields : List (Bool × GoType) → Bool
  | [] => true
  | (anon, t) :: rest =>
    (!anon || (!(typeIdOf t == typeIdOf controllerPtrType) && !(isPtrKind t) && cleanTy t))
      && cleanFields rest
end

/-- Cleanliness of a queue node: a pointer node must be the non-nil root
with a clean pointee, any other node must have a clean type. -/
def cleanNode (n : BfsNode) : Bool :=
  match n.valTy with
  | .ptr t => n.nonNil && cleanTy t
  | t => cleanTy t

/-- Modelled from the spec (§4.3): one navigation step — if the current
value is a pointer, first resolve to its pointed-to value, then select the
field by index; otherwise select the field by index directly. -/
def specDescend (value : GoValue) (index : Nat) : Option GoValue :=
  if value.kindIsPtr then
    match value.elem with
    | none => none
    | some e => e.field index
  else value.field index

/-- Modelled from the spec (§4.3): navigation — starting from the root
instance, descend one field per index of the stored index path. -/
def specNavigate : GoValue → List Nat → Option GoValue
  | value, [] => some value
  | value, index :: rest =>
    match specDescend value index with
    | none => none
    | some v => specNavigate v rest

/-- Modelled from the spec (§4.3): normalization — take the address if the
method needs a pointer receiver but the resolved value is not a pointer,
dereference if it needs a value receiver but the resolved value is a
pointer, otherwise keep the value. -/
def specNormalize (receiverIsPointerKind : Bool) (value : GoValue) : Option GoValue :=
  if receiverIsPointerKind && !value.kindIsPtr then some (GoValue.ptr value)
  else if !receiverIsPointerKind && value.kindIsPtr then value.elem
  else some value

/-- Modelled from the spec (§4.3): invoke as the composition of navigation,
normalization, and the call with the normalized receiver prepended. -/
def specInvoke (call : Nat → List GoValue → List GoValue)
    (fieldPath : ControllerFieldPath) (root : GoValue) (input : List GoValue) :
    Option (List GoValue) :=
  match specNavigate root fieldPath.FieldIndexPath with
  | none => none
  | some target =>
    match specNormalize fieldPath.IsPointer target with
    | none => none
    | some receiver => some (call fieldPath.FunctionCall (receiver :: input))

/- Fixtures.  Method sets are written as Go's reflection would report them
(exported methods, sorted by name; a method set containing a promoted and a
shadowing method keeps only the shallower one). -/

/-- Fixture: the reflected identity of the first output (`revel.Result`) of
the hook methods. -/
def resultTid : TypeId := .named "Result"

/-- Fixture: `func (c InnerHook) Before() (Result, InnerHook)`. -/
def innerBeforeM : GoMethod := { name := "Before", outs := [resultTid, .named "InnerHook"], fid := 11 }

/-- Fixture: `func (c InnerHook) After() (Result, InnerHook)`. -/
def innerAfterM : GoMethod := { name := "After", outs := [resultTid, .named "InnerHook"], fid := 12 }

/-- Fixture: `type InnerHook struct {}` with `Before` and `After` hooks. -/
def innerHook : GoType := .strukt "InnerHook" [] [innerAfterM, innerBeforeM] []

/-- Fixture: `func (c OuterHook) Before() (Result, OuterHook)`. -/
def outerBeforeM : GoMethod := { name := "Before", outs := [resultTid, .named "OuterHook"], fid := 21 }

/-- Fixture: `func (c OuterHook) After() (Result, OuterHook)`. -/
def outerAfterM : GoMethod := { name := "After", outs := [resultTid, .named "OuterHook"], fid := 22 }

/-- Fixture: `type OuterHook struct { InnerHook }` declaring its own
`Before` and `After` (which therefore shadow the promoted ones in its
method set). -/
def outerHook : GoType :=
  .strukt "OuterHook" [(true, innerHook)] [outerAfterM, outerBeforeM] []

/-- Fixture: the field path of `OuterHook`'s own `Before`. -/
def outerBeforePath : ControllerFieldPath := newFieldPath false 21 []

/-- Fixture: the field path of `OuterHook`'s own `After`. -/
def outerAfterPath : ControllerFieldPath := newFieldPath false 22 []

/-- Fixture: the field path of the embedded `InnerHook`'s `Before`. -/
def innerBeforePath : ControllerFieldPath := newFieldPath false 11 [0]

/-- Fixture: the field path of the embedded `InnerHook`'s `After`. -/
def innerAfterPath : ControllerFieldPath := newFieldPath false 12 [0]

/-- Fixture: `type Inner3 struct { *Controller }` — the capability embedded
at depth one. -/
def inner3 : GoType := .strukt "Inner3" [(true, controllerPtrType)] [] []

/-- Fixture: `type Outer3 struct { Named *Controller; Inner3 }` — one named
(hence ignored) capability field and one anonymous struct embedding the
capability at depth two. -/
def outer3 : GoType := .strukt "Outer3" [(false, controllerPtrType), (true, inner3)] [] []

/-- Fixture: `type Inner4 struct { *Controller }`. -/
def inner4 : GoType := .strukt "Inner4" [(true, controllerPtrType)] [] []

/-- Fixture: `type Outer4 struct { *Inner4 }` — the capability reached only
through an anonymous pointer-to-struct embedding. -/
def outer4 : GoType := .strukt "Outer4" [(true, .ptr inner4)] [] []

/-- Fixture: `type Outer7 struct { *MyInt }` — an anonymous pointer to a
non-struct named type, a degenerate embedding of pointer kind. -/
def outer7 : GoType := .strukt "Outer7" [(true, .ptr (.prim "MyInt"))] [] []

/-- Fixture: `type Outer8 struct { *Inner8 }` with `type Inner8 struct {}` —
no capability anywhere, but an anonymous pointer-kind embedding. -/
def outer8 : GoType := .strukt "Outer8" [(true, .ptr (.strukt "Inner8" [] [] []))] [] []

/-- Fixture: a capability-free controller shape whose only capability-typed
field is named, hence never traversed: `type Lonely struct { C *Controller;
Sub }` with `type Sub struct { N int }`. -/
def lonely : GoType :=
  .strukt "Lonely" [(false, controllerPtrType), (true, .strukt "Sub" [(false, .prim "int")] [] [])] [] []

/-- Fixture: `type Home struct {}`, a minimal registrable controller type. -/
def homeType : GoType := .strukt "Home" [] [] []

/-- Fixture: the descriptor already registered under `App.home` before the
duplicate registration attempt. -/
def dupDescriptor : ControllerType :=
  { Namespace := "App.", ModuleSource := appModule, typ := homeType, Methods := [],
    ControllerIndexes := [],
    ControllerEvents := { Before := [], After := [], Finally := [], Panic := [] },
    Annotations := [] }

/-- Fixture: a registry already holding `App.home`. -/
def dupContainer : ControllerContainer := [("App.home", dupDescriptor)]

/-- Fixture: the action method `Index` as stored by registration (with its
precomputed lowercased name). -/
def indexMethod : MethodType :=
  { Name := "Index", Args := [], RenderArgNames := [], lowerName := "index", Index := 0,
    Annotations := [] }

/-- Fixture: a descriptor whose only method is `Index`. -/
def indexedDescriptor : ControllerType :=
  { Namespace := "App.", ModuleSource := appModule, typ := homeType,
    Methods := [indexMethod], ControllerIndexes := [],
    ControllerEvents := { Before := [], After := [], Finally := [], Panic := [] },
    Annotations := [] }

theorem typeChecker_fold (checkType : GoType) (fieldPath : List Nat) (l : List GoMethod)
    (cte : ControllerTypeEvents) :
    l.foldl (fun cte m =>
      if m.outs.length = 2 ∧ m.outs[1]? = some (typeIdOf checkType) then
        let controllerFieldPath := newFieldPath (isPtrKind checkType) m.fid fieldPath
        match toLowerStr m.name with
        | "before" => { cte with Before := controllerFieldPath :: cte.Before }
        | "after" => { cte with After := cte.After ++ [controllerFieldPath] }
        | "panic" => { cte with Panic := cte.Panic ++ [controllerFieldPath] }
        | "finally" => { cte with Finally := cte.Finally ++ [controllerFieldPath] }
        | _ => cte
      else cte) cte
    = { Before := (hookedOf checkType fieldPath l "before").reverse ++ cte.Before,
        After := cte.After ++ hookedOf checkType fieldPath l "after",
        Finally := cte.Finally ++ hookedOf checkType fieldPath l "finally",
        Panic := cte.Panic ++ hookedOf checkType fieldPath l "panic" } := by
  induction l generalizing cte with
  | nil => simp [hookedOf]
  | cons m rest ih =>
    simp only [List.foldl_cons]
    by_cases hq : m.outs.length = 2 ∧ m.outs[1]? = some (typeIdOf checkType)
    · have hq' : qualifies checkType m = true := by simp [qualifies, hq]
      simp only [if_pos hq]
      split
      · next hs =>
        rw [ih]
        simp [hookedOf, List.filter_cons, hq', hs]
      · next hs =>
        rw [ih]
        simp [hookedOf, List.filter_cons, hq', hs]
      · next hs =>
        rw [ih]
        simp [hookedOf, List.filter_cons, hq', hs]
      · next hs =>
        rw [ih]
        simp [hookedOf, List.filter_cons, hq', hs]
      · next hs1 hs2 hs3 hs4 =>
        rw [ih]
        simp [hookedOf, List.filter_cons, hq', if_neg hs1, if_neg hs2, if_neg hs3, if_neg hs4]
    · have hq' : qualifies checkType m = false := by simp [qualifies, hq]
      simp only [if_neg hq]
      rw [ih]
      simp [hookedOf, List.filter_cons, hq']

theorem typeChecker_eq (checkType : GoType) (fieldPath : List Nat)
    (cte : ControllerTypeEvents) :
    typeChecker cte fieldPath checkType = combineDH (levelHooks checkType fieldPath) cte := by
  have h := typeChecker_fold checkType fieldPath (methodSet checkType) cte
  simpa [typeChecker, combineDH, levelHooks] using h

theorem combineDH_empty (cte : ControllerTypeEvents) : combineDH emptyDH cte = cte := by
  simp [combineDH, emptyDH]

theorem combineDH_append (a b : DiscoveredHooks) (cte : ControllerTypeEvents) :
    combineDH b (combineDH a cte) = combineDH (appendDH a b) cte := by
  simp [combineDH, appendDH, List.reverse_append, List.append_assoc]

theorem appendDH_assoc (a b c : DiscoveredHooks) :
    appendDH (appendDH a b) c = appendDH a (appendDH b c) := by
  simp [appendDH]

theorem appendDH_empty (b : DiscoveredHooks) : appendDH emptyDH b = b := by
  simp [appendDH, emptyDH]

theorem check_eq (cte : ControllerTypeEvents) (theType : GoType) (fieldPath : List Nat) :
    check cte theType fieldPath = combineDH (hookLists theType fieldPath) cte := by
  refine check.induct
    (fun cte t fp => check cte t fp = combineDH (hookLists t fp) cte)
    (fun cte fs fp i => checkFields cte fs fp i = combineDH (hookListsFields fs fp i) cte)
    ?_ ?_ ?_ cte theType fieldPath
  · intro cte t fp h2
    rw [check, h2, typeChecker_eq, typeChecker_eq, combineDH_append, combineDH_append,
      hookLists, appendDH_assoc]
  · intro cte fp i
    rw [checkFields, hookListsFields, combineDH_empty]
  · intro cte anon t rest fp i ih1 ih2
    rw [checkFields, hookListsFields]
    cases hk : isStruktKind t
    · simp only [hk, Bool.false_eq_true, if_false, dite_eq_ite, ite_false] at ih2 ⊢
      rw [ih2, appendDH_empty]
    · simp only [hk, if_true, dite_eq_ite, ite_true] at ih2 ⊢
      rw [ih2, ih1, combineDH_append]

/-- Claim C1: over every structural tree, hook discovery stores the `Before`
bucket in reverse discovery order (each newly discovered `Before` hook is
prepended, so later — deeper — discoveries precede earlier ones) and the
`After`, `Panic`, `Finally` buckets in discovery order (each newly
discovered hook is appended); on the fixture, the `Before` entry of the
embedded component precedes the outer type's own entry, while the `After`
entries keep the outer-then-inner discovery order. -/
theorem C1_before_reverse_others_forward :
    (∀ t : GoType,
       (check ⟨[], [], [], []⟩ t []).Before = (hookLists t []).Before.reverse
       ∧ (check ⟨[], [], [], []⟩ t []).After = (hookLists t []).After
       ∧ (check ⟨[], [], [], []⟩ t []).Finally = (hookLists t []).Finally
       ∧ (check ⟨[], [], [], []⟩ t []).Panic = (hookLists t []).Panic)
    ∧ (check ⟨[], [], [], []⟩ outerHook []).Before = [innerBeforePath, outerBeforePath]
    ∧ (check ⟨[], [], [], []⟩ outerHook []).After = [outerAfterPath, innerAfterPath] := by
  have hb : toLowerStr "Before" = "before" := by decide
  have ha : toLowerStr "After" = "after" := by decide
  refine ⟨fun t => ?_, ?_, ?_⟩
  · rw [check_eq]
    simp [combineDH]
  · simp [check, checkFields, typeChecker, methodSet, outerHook, innerHook, fieldsOf,
      isStruktKind, isPtrKind, typeIdOf, outerAfterM, outerBeforeM, innerAfterM,
      innerBeforeM, hb, ha, newFieldPath, resultTid, innerBeforePath, outerBeforePath]
  · simp [check, checkFields, typeChecker, methodSet, outerHook, innerHook, fieldsOf,
      isStruktKind, isPtrKind, typeIdOf, outerAfterM, outerBeforeM, innerAfterM,
      innerBeforeM, hb, ha, newFieldPath, resultTid, outerAfterPath, innerAfterPath]

/-- Claim C2: one scan of an examined type form records a method as a
lifecycle hook exactly when it has exactly two declared outputs, its second
output is the examined type form itself, and its lowercased name is one of
the four bucket names; the buckets extend precisely by the filtered method
list (so any method failing the output test or named otherwise contributes
nothing). -/
theorem C2_hook_qualification (checkType : GoType) (cte : ControllerTypeEvents)
    (fieldPath : List Nat) :
    typeChecker cte fieldPath checkType =
      { Before := (hookedOf checkType fieldPath (methodSet checkType) "before").reverse
          ++ cte.Before,
        After := cte.After ++ hookedOf checkType fieldPath (methodSet checkType) "after",
        Finally := cte.Finally
          ++ hookedOf checkType fieldPath (methodSet checkType) "finally",
        Panic := cte.Panic ++ hookedOf checkType fieldPath (methodSet checkType) "panic" } := by
  have h := typeChecker_eq checkType fieldPath cte
  simpa [combineDH, levelHooks] using h

theorem findLoop_nil : findLoop [] = some [] := by
  simp [findLoop]

theorem findLoop_cons_none (n : BfsNode) (rest : List BfsNode)
    (hd : derefNode n = none) : findLoop (n :: rest) = none := by
  rw [findLoop]
  split
  · rfl
  · next heq => rw [hd] at heq; cases heq
  · next heq => rw [hd] at heq; cases heq

theorem findLoop_cons_strukt (n : BfsNode) (rest : List BfsNode) (nm : String)
    (fs : List (Bool × GoType)) (vm pm : List GoMethod)
    (hd : derefNode n = some (.strukt nm fs vm pm)) :
    findLoop (n :: rest) =
      match findLoop (rest ++ (processFields fs n.index 0).2) with
      | none => none
      | some tail => some ((processFields fs n.index 0).1 ++ tail) := by
  rw [findLoop]
  split
  · next heq => rw [hd] at heq; cases heq
  · next heq =>
    rw [hd] at heq
    cases heq
    rfl
  · next hne heq =>
    rw [hd] at heq
    cases heq
    exact absurd rfl (hne nm fs vm pm)

theorem findLoop_cons_skip (n : BfsNode) (rest : List BfsNode) (t : GoType)
    (hd : derefNode n = some t) (hs : isStruktKind t = false) :
    findLoop (n :: rest) = findLoop rest := by
  rw [findLoop]
  split
  · next heq => rw [hd] at heq; cases heq
  · next heq =>
    rw [hd] at heq
    cases heq
    simp [isStruktKind] at hs
  · rfl

theorem cleanNode_deref (n : BfsNode) (t : GoType) (hc : cleanNode n = true)
    (hd : derefNode n = some t) : cleanTy t = true := by
  unfold cleanNode at hc
  unfold derefNode at hd
  cases hv : n.valTy <;> rw [hv] at hc hd
  case prim s => cases hd; simp [cleanTy]
  case strukt s fs vm pm => cases hd; exact hc
  case ptr t' =>
    cases hn : n.nonNil <;> rw [hn] at hc hd <;> simp at hc hd
    rw [← hd]
    exact hc

theorem cleanNode_nonNil (n : BfsNode) (hc : cleanNode n = true) :
    derefNode n ≠ none := by
  unfold cleanNode at hc
  unfold derefNode
  cases hv : n.valTy
  case prim s => simp [hv]
  case strukt s fs vm pm => simp [hv]
  case ptr t' =>
    simp only [hv] at hc ⊢
    simp at hc
    simp [hc.1]

theorem cleanNode_enqueue (t : GoType) (idx : List Nat) (hp : isPtrKind t = false)
    (hcl : cleanTy t = true) : cleanNode ⟨t, false, idx⟩ = true := by
  cases t with
  | prim s => simp [cleanNode, cleanTy]
  | ptr t2 => simp [isPtrKind] at hp
  | strukt s fs vm pm => simpa [cleanNode] using hcl

theorem processFields_clean (fs : List (Bool × GoType)) (base : List Nat) (i : Nat)
    (h : cleanFields fs = true) :
    (processFields fs base i).1 = []
      ∧ ∀ n ∈ (processFields fs base i).2, cleanNode n = true := by
  induction fs generalizing i with
  | nil => simp [processFields]
  | cons hd rest ih =>
    obtain ⟨anon, t⟩ := hd
    rw [cleanFields] at h
    cases anon
    · simp only [Bool.not_false, Bool.true_or, Bool.true_and] at h
      have hr := ih (i + 1) h
      simpa [processFields] using hr
    · rw [Bool.not_true, Bool.false_or, Bool.and_eq_true, Bool.and_eq_true,
        Bool.and_eq_true] at h
      obtain ⟨⟨⟨h1a, h1b⟩, h1c⟩, h2⟩ := h
      have hne : ¬ typeIdOf t = typeIdOf controllerPtrType := by simpa using h1a
      have hp : isPtrKind t = false := by simpa using h1b
      have hr := ih (i + 1) h2
      have hnode : cleanNode ⟨t, false, base ++ [i]⟩ = true :=
        cleanNode_enqueue t (base ++ [i]) hp h1c
      have he : processFields ((true, t) :: rest) base i
          = ((processFields rest base (i + 1)).1,
             ⟨t, false, base ++ [i]⟩ :: (processFields rest base (i + 1)).2) := by
        simp [processFields, hne]
      rw [he]
      refine ⟨hr.1, ?_⟩
      intro x hx
      rcases List.mem_cons.mp hx with hx | hx
      · rw [hx]; exact hnode
      · exact hr.2 x hx

theorem findLoop_clean (q : List BfsNode) :
    (∀ n ∈ q, cleanNode n = true) → findLoop q = some [] := by
  refine findLoop.induct (fun q => (∀ n ∈ q, cleanNode n = true) → findLoop q = some [])
    ?_ ?_ ?_ ?_ ?_ q
  · intro h
    exact findLoop_nil
  · intro n rest hd h
    exact absurd hd (cleanNode_nonNil n (h n (by simp)))
  · intro n rest nm fs vm pm hd
    dsimp only
    intro hnone ih h
    have hn : cleanNode n = true := h n (by simp)
    have hty := cleanNode_deref n _ hn hd
    have hfs : cleanFields fs = true := by simpa [cleanTy] using hty
    have hpc := processFields_clean fs n.index 0 hfs
    have hall : ∀ x ∈ rest ++ (processFields fs n.index 0).2, cleanNode x = true := by
      intro x hx
      rcases List.mem_append.mp hx with hx | hx
      · exact h x (List.mem_cons_of_mem _ hx)
      · exact hpc.2 x hx
    rw [ih hall] at hnone
    cases hnone
  · intro n rest nm fs vm pm hd
    dsimp only
    intro tail htail ih h
    have hn : cleanNode n = true := h n (by simp)
    have hty := cleanNode_deref n _ hn hd
    have hfs : cleanFields fs = true := by simpa [cleanTy] using hty
    have hpc := processFields_clean fs n.index 0 hfs
    have hall : ∀ x ∈ rest ++ (processFields fs n.index 0).2, cleanNode x = true := by
      intro x hx
      rcases List.mem_append.mp hx with hx | hx
      · exact h x (List.mem_cons_of_mem _ hx)
      · exact hpc.2 x hx
    rw [findLoop_cons_strukt n rest nm fs vm pm hd, ih hall]
    simp [hpc.1]
  · intro n rest val hnot hd ih h
    have hs : isStruktKind val = false := by
      cases val with
      | prim s => simp [isStruktKind]
      | ptr t2 => simp [isStruktKind]
      | strukt s fs vm pm => exact absurd rfl (hnot s fs vm pm)
    rw [findLoop_cons_skip n rest val hd hs]
    exact ih (fun x hx => h x (List.mem_cons_of_mem _ hx))

/-- Claim C3: the field scan of the breadth-first walk draws its recorded
paths and its enqueued nodes only from anonymous fields — named fields
contribute nothing; an anonymous field of exactly the capability type is
recorded (with the accumulated path extended by its index) and never
enqueued for descent, any other anonymous field is enqueued; and on a type
whose single capability occurrence is embedded at depth two (its shallow
capability field being named, hence skipped), `findControllers` returns
exactly one index path, of length two, ending at the capability field's
index. -/
theorem C3_anonymous_fields_only :
    (∀ (fs : List (Bool × GoType)) (base : List Nat) (i : Nat),
       (processFields fs base i).1
         = (enumFrom i fs).filterMap (fun p =>
             if p.2.1 ∧ typeIdOf p.2.2 = typeIdOf controllerPtrType
             then some (base ++ [p.1]) else none)
       ∧ (processFields fs base i).2
         = (enumFrom i fs).filterMap (fun p =>
             if p.2.1 ∧ ¬ typeIdOf p.2.2 = typeIdOf controllerPtrType
             then some (⟨p.2.2, false, base ++ [p.1]⟩ : BfsNode) else none))
    ∧ findControllers outer3 = some [[1, 0]] := by
  constructor
  · intro fs
    induction fs with
    | nil => intro base i; simp [processFields, enumFrom]
    | cons hd rest ih =>
      intro base i
      obtain ⟨anon, t⟩ := hd
      have hr := ih base (i + 1)
      cases anon <;> by_cases hc : typeIdOf t = typeIdOf controllerPtrType <;>
        refine ⟨?_, ?_⟩ <;>
        simp [processFields, enumFrom, hc, hr.1, hr.2]
  · simp [findControllers, findLoop, derefNode, processFields, outer3, inner3,
      typeIdOf, controllerPtrType]

/-- Claim C4 (evaluation of the code at the failing input): on a type whose
capability is embedded behind an anonymous pointer-to-struct field, the
walk enqueues that field as the nil pointer of the zero root value; at its
dequeue `Elem()` yields the zero `reflect.Value` and the `Type()` call on it
panics, so `findControllers` fails instead of returning the path the spec
promises. -/
theorem C4_nested_pointer_panics : findControllers outer4 = none := by
  simp [findControllers, findLoop, derefNode, processFields, outer4, inner4,
    typeIdOf, controllerPtrType]

/-- Claim C7 counterexample: the claim promises that a dequeued node whose
dereferenced type is not a struct is skipped without failure, but a
dequeued nil pointer (here the anonymous `*MyInt` embedding, whose
dereferenced type `MyInt` is not a struct) panics before the struct test is
reached, so the walk fails instead of returning the empty result. -/
theorem C7_nilptr_fails : findControllers outer7 = none := by
  simp [findControllers, findLoop, derefNode, processFields, outer7,
    typeIdOf, controllerPtrType]

/-- Claim C7 (amended): every dequeued node that dereferences successfully
(in particular any node that is not a nil pointer) and whose dereferenced
type is not a struct kind is skipped, and traversal continues with the
remaining queue unchanged — no failure, only a possibly smaller result. -/
theorem C7_nonstruct_skipped (n : BfsNode) (rest : List BfsNode) (t : GoType)
    (hd : derefNode n = some t) (hs : isStruktKind t = false) :
    findLoop (n :: rest) = findLoop rest :=
  findLoop_cons_skip n rest t hd hs

/-- Claim C7 witness: a dequeued zero value of the non-struct named type
`MyInt` is skipped and the walk just continues. -/
theorem C7_nonstruct_skipped_witness :
    findLoop [⟨GoType.prim "MyInt", false, []⟩] = findLoop [] :=
  C7_nonstruct_skipped ⟨GoType.prim "MyInt", false, []⟩ [] (GoType.prim "MyInt") rfl rfl

/-- Claim C8 counterexample: the claim promises the empty sequence, without
failure, for every type with no embedded capability occurrence; but a
capability-free type with an anonymous pointer-to-struct embedding panics
when the embedded nil pointer is dequeued, so `findControllers` fails
instead of returning the empty sequence. -/
theorem C8_pointer_embedding_fails : findControllers outer8 = none := by
  simp [findControllers, findLoop, derefNode, processFields, outer8,
    typeIdOf, controllerPtrType]

/-- Claim C8 (amended): for every type whose transitive anonymous-embedding
closure contains no capability-typed field and no pointer-kind field (the
shapes whose dequeue would panic on the nil zero value), `findControllers`
returns the empty sequence and raises no failure. -/
theorem C8_capfree_empty (t : GoType) (h : cleanTy t = true) :
    findControllers t = some [] := by
  unfold findControllers
  apply findLoop_clean
  intro n hn
  simp only [List.mem_singleton] at hn
  subst hn
  simp [cleanNode, h]

/-- Claim C8 witness: a controller type whose only capability-typed field is
named (never traversed) yields the empty sequence without failure. -/
theorem C8_capfree_empty_witness : findControllers lonely = some [] :=
  C8_capfree_empty lonely (by decide)

theorem navigate_fold (path : List Nat) (value : GoValue) :
    path.foldlM (fun value index =>
      if value.kindIsPtr then
        match value.elem with
        | none => none
        | some e => e.field index
      else value.field index) value = specNavigate value path := by
  show path.foldlM specDescend value = specNavigate value path
  induction path generalizing value with
  | nil => rfl
  | cons a rest ih =>
    rw [specNavigate]
    simp only [List.foldlM_cons]
    cases hsd : specDescend value a with
    | none => rfl
    | some v => exact ih v

/-- Claim C5: `Invoke` is exactly the spec's three phases — navigate the
stored index path (dereferencing first whenever the current value is a
pointer, then selecting the field by index), normalize the resolved value
to the stored receiver kind (address it for a needed pointer receiver,
dereference it for a needed value receiver), and call the stored function
with the normalized receiver prepended to the extra arguments, returning
the call's results. -/
theorem C5_invoke_refines_spec (call : Nat → List GoValue → List GoValue)
    (fieldPath : ControllerFieldPath) (value : GoValue) (input : List GoValue) :
    fieldPath.Invoke call value input = specInvoke call fieldPath value input := by
  unfold ControllerFieldPath.Invoke specInvoke
  rw [navigate_fold]
  cases hnav : specNavigate value fieldPath.FieldIndexPath with
  | none => rfl
  | some target =>
    unfold specNormalize
    rfl

theorem find_ci_some (l : List MethodType)
    (inv : ∀ m' ∈ l, m'.lowerName = toLowerStr m'.Name)
    (m : MethodType) (hm : m ∈ l)
    (uniq : ∀ m' ∈ l, toLowerStr m'.Name = toLowerStr m.Name → m' = m)
    (s : String) (hs : toLowerStr s = toLowerStr m.Name) :
    l.find? (fun me => me.lowerName == toLowerStr s) = some m := by
  induction l with
  | nil => cases hm
  | cons h0 rest ih =>
    by_cases hp : (h0.lowerName == toLowerStr s) = true
    · rw [List.find?_cons_of_pos rest
        (show (fun me => me.lowerName == toLowerStr s) h0 = true from hp)]
      have h1 : h0.lowerName = toLowerStr s := by simpa using hp
      have h2 : toLowerStr h0.Name = toLowerStr m.Name := by
        rw [← inv h0 (by simp), h1, hs]
      rw [uniq h0 (by simp) h2]
    · rw [List.find?_cons_of_neg rest
        (show ¬ (fun me => me.lowerName == toLowerStr s) h0 = true by simpa using hp)]
      have hm' : m ∈ rest := by
        rcases List.mem_cons.mp hm with he | hr
        · exfalso
          apply hp
          rw [← he, inv m hm, hs]
          simp
        · exact hr
      exact ih (fun x hx => inv x (List.mem_cons_of_mem _ hx)) hm'
        (fun x hx => uniq x (List.mem_cons_of_mem _ hx))

theorem find_ci_none (l : List MethodType) (s : String)
    (inv : ∀ m' ∈ l, m'.lowerName = toLowerStr m'.Name)
    (hno : ∀ m' ∈ l, toLowerStr m'.Name ≠ toLowerStr s) :
    l.find? (fun me => me.lowerName == toLowerStr s) = none := by
  induction l with
  | nil => rfl
  | cons h0 rest ih =>
    rw [List.find?_cons_of_neg rest
      (show ¬ (fun me => me.lowerName == toLowerStr s) h0 = true by
        intro hcon
        simp only [beq_iff_eq] at hcon
        rw [inv h0 (by simp)] at hcon
        exact hno h0 (by simp) hcon)]
    exact ih (fun x hx => inv x (List.mem_cons_of_mem _ hx))
      (fun x hx => hno x (List.mem_cons_of_mem _ hx))

/-- Claim C9: `Method` lookup is case-insensitive — under the registration
invariant that every stored `lowerName` is the lowercased method name, a
registered method (unique for its lowercased name) is returned for every
query string with the same lowercase form, and a query matching no
method's name returns `none`. -/
theorem C9_method_lookup_ci (ct : ControllerType)
    (inv : ∀ m ∈ ct.Methods, m.lowerName = toLowerStr m.Name) :
    (∀ m ∈ ct.Methods,
        (∀ m' ∈ ct.Methods, toLowerStr m'.Name = toLowerStr m.Name → m' = m) →
        ∀ s : String, toLowerStr s = toLowerStr m.Name → ct.Method s = some m)
    ∧ (∀ s : String, (∀ m ∈ ct.Methods, toLowerStr m.Name ≠ toLowerStr s) →
        ct.Method s = none) := by
  constructor
  · intro m hm uniq s hs
    exact find_ci_some ct.Methods inv m hm uniq s hs
  · intro s hno
    exact find_ci_none ct.Methods s inv hno

/-- Claim C9 witness: with the single registered method `Index`, the
lookups `"index"`, `"INDEX"` and `"Index"` all return it and the lookup of
`"Edit"` returns `none`. -/
theorem C9_method_lookup_ci_witness :
    indexedDescriptor.Method "index" = some indexMethod
    ∧ indexedDescriptor.Method "INDEX" = some indexMethod
    ∧ indexedDescriptor.Method "Index" = some indexMethod
    ∧ indexedDescriptor.Method "Edit" = none := by
  have h := C9_method_lookup_ci indexedDescriptor (by decide)
  have hmem : indexMethod ∈ indexedDescriptor.Methods := by decide
  have huniq : ∀ m' ∈ indexedDescriptor.Methods,
      toLowerStr m'.Name = toLowerStr indexMethod.Name → m' = indexMethod := by decide
  exact ⟨h.1 indexMethod hmem huniq "index" (by decide),
    h.1 indexMethod hmem huniq "INDEX" (by decide),
    h.1 indexMethod hmem huniq "Index" (by decide),
    h.2 "Edit" (by decide)⟩

/-- Claim C6 counterexample: the claim promises that every registration
under an already-bound logical name is rejected without failure; but the
code builds the new descriptor (running capability discovery) before the
duplicate check, so re-registering under the bound name `App.outer4` a type
whose discovery panics (an anonymous pointer-to-struct embedding) fails
outright instead of being rejected with a diagnostic. -/
theorem C6_panicking_duplicate :
    AddControllerType [("App.outer4", dupDescriptor)] (some appModule) outer4 [] = none := by
  simp [AddControllerType, findControllers, findLoop, derefNode, processFields, outer4,
    inner4, typeIdOf, controllerPtrType]

/-- Claim C6 (amended): a registration whose logical name (the owning
module's namespace followed by the lowercased type name) is already bound,
and whose own descriptor construction raises no failure (capability
discovery of the submitted type succeeds), is rejected without modifying
the registry — the result is the unchanged container, so the existing
binding (and every alias) still resolves to the first-registered
descriptor — and no failure is raised (the duplicate is only logged). -/
theorem C6_duplicate_rejected (c : ControllerContainer) (moduleSource : Option Module)
    (t : GoType) (ms : List MethodType) (idxs : List (List Nat)) (d : ControllerType)
    (hfind : findControllers t = some idxs)
    (hdup : c.lookup ((match moduleSource with
        | none => appModule
        | some m => m).Namespace ++ toLowerStr (typeName t)) = some d) :
    ∃ ct, AddControllerType c moduleSource t ms = some (c, ct) := by
  simp only [AddControllerType, hfind, ControllerType.Name, ControllerType.ShortName]
  rw [hdup]
  exact ⟨_, rfl⟩

/-- Claim C6 witness: re-registering `Home` under the already-bound logical
name `App.home` leaves the registry unchanged and raises no failure. -/
theorem C6_duplicate_rejected_witness :
    ∃ ct, AddControllerType dupContainer (some appModule) homeType []
      = some (dupContainer, ct) :=
  C6_duplicate_rejected dupContainer (some appModule) homeType [] [] dupDescriptor
    (by simp [findControllers, findLoop, derefNode, processFields, homeType, typeIdOf,
      controllerPtrType])
    rfl

/-- Claim C10: registering with a nil module proceeds exactly as if the
application module had been passed — the two calls are equal outright — and
on a successful first registration the descriptor's namespace is the
application module's namespace and the descriptor is additionally indexed
under its bare lowercase short name. -/
theorem C10_nil_module_defaults (c : ControllerContainer) (t : GoType)
    (ms : List MethodType) (idxs : List (List Nat))
    (hfind : findControllers t = some idxs)
    (hfresh : c.lookup (appModule.Namespace ++ toLowerStr (typeName t)) = none) :
    AddControllerType c none t ms = AddControllerType c (some appModule) t ms
    ∧ ∃ c' ct, AddControllerType c none t ms = some (c', ct)
        ∧ ct.Namespace = appModule.Namespace
        ∧ c'.lookup ct.ShortName = some ct := by
  refine ⟨rfl, ?_⟩
  simp only [AddControllerType, hfind, ControllerType.Name, ControllerType.ShortName]
  rw [hfresh]
  refine ⟨_, _, rfl, rfl, ?_⟩
  simp [List.lookup]

/-- Claim C10 witness: registering `Home` with a nil module into the empty
registry equals registering it under `appModule`, sets the application
namespace, and also binds the bare short name `home`. -/
theorem C10_nil_module_defaults_witness :
    AddControllerType [] none homeType [] = AddControllerType [] (some appModule) homeType []
    ∧ ∃ c' ct, AddControllerType [] none homeType [] = some (c', ct)
        ∧ ct.Namespace = appModule.Namespace
        ∧ c'.lookup ct.ShortName = some ct :=
  C10_nil_module_defaults [] homeType [] []
    (by simp [findControllers, findLoop, derefNode, processFields, homeType, typeIdOf,
      controllerPtrType])
    rfl

end Revel
